import Mathlib

/-!
Verification of the shark-fin stock monitor (src/bot.py) against its
natural-language specification.

The embedding below translates the monitor loop, the prediction engine and
the primary-source payload parser into Lean.  Timestamps and durations are
modelled as rationals (Python mixes integer milliseconds with float
averages; exact rational arithmetic represents both), quantities as
integers.  Fallible values are `Option`s, and Python truthiness tests on
numbers-or-None are modelled explicitly.
-/

/-- One entry of `state['cycle_history']` as built by `record_cycle`. -/
structure CycleRecord where
  depletion_duration : ℚ
  restock_delay : ℚ
  total : ℚ
deriving DecidableEq, Repr

/-- The mutable monitor state dictionary from src/bot.py (the
`prometheus_api_url` cache is part of the data-source adapter, not of the
monitor logic, and is omitted). -/
structure MState where
  quantity : Option Int
  depletion_time : Option ℚ
  restock_time : Option ℚ
  next_restock : Option ℚ
  warning_sent : Bool
  depart_sent : Bool
  restock_alert_sent : Bool
  cycle_history : List CycleRecord
  avg_restock_delay : Option ℚ
deriving Repr

/-- The initial `state` dictionary. -/
def initState : MState :=
  { quantity := none
    depletion_time := none
    restock_time := none
    next_restock := none
    warning_sent := false
    depart_sent := false
    restock_alert_sent := false
    cycle_history := []
    avg_restock_delay := none }

/-- A parsed data snapshot as consumed by `monitor` (the fields of the
dictionaries returned by `get_from_prometheus` / `get_from_yata` that the
monitor reads). -/
structure Snapshot where
  quantity : Int
  cost : Int
  source : String
deriving Repr

/-- Python truthiness of an optional number (`None` and `0` are falsy). -/
def truthyQ : Option ℚ → Bool
  | none => false
  | some x => x != 0

/-- Notifications sent through the Discord sink by `monitor`. -/
inductive Notif where
  | depletion
  | restock
  | warning
  | depart
deriving DecidableEq, Repr

/-- `record_cycle(restock_t, depletion_t, next_restock_t)` from src/bot.py:
append a cycle, evict the oldest entry when the history exceeds 10, and
recompute `avg_restock_delay` as the mean of the retained delays. -/
def record_cycle (s : MState) (restock_t depletion_t next_restock_t : ℚ) : MState :=
  let c : CycleRecord :=
    { depletion_duration := depletion_t - restock_t
      restock_delay := next_restock_t - depletion_t
      total := next_restock_t - restock_t }
  let h0 := s.cycle_history ++ [c]
  let h := if h0.length > 10 then h0.tail else h0
  { s with
      cycle_history := h
      avg_restock_delay := some ((h.map CycleRecord.restock_delay).sum / (h.length : ℚ)) }

/-- `predict_next_restock(depletion_time)` from src/bot.py.  The Python code
tests `state['avg_restock_delay']` for truthiness, so `None` and `0` both
select the 2-hour default. -/
def predict_next_restock (s : MState) (depletion_time : ℚ) : ℚ :=
  if truthyQ s.avg_restock_delay then depletion_time + s.avg_restock_delay.getD 0
  else depletion_time + 2 * 60 * 60 * 1000

/-- `calc_depart(restock_time)` from src/bot.py:
`restock_time - FLIGHT_MINUTES*60*1000 - BUFFER_MINUTES*60*1000` with
`FLIGHT_MINUTES = 94`, `BUFFER_MINUTES = 2`. -/
def calc_depart (restock_time : ℚ) : ℚ :=
  restock_time - 94 * 60 * 1000 - 2 * 60 * 1000

/-- The edge-detection part of one `monitor` tick (lines 329-355 of
src/bot.py): store the new quantity, then run the depletion-edge branch or
the restock-edge branch.  Returns the new state and the notifications sent
by these branches. -/
def tickEdges (s0 : MState) (n : ℚ) (d : Snapshot) : MState × List Notif :=
  let qty := d.quantity
  let prev := s0.quantity
  let s := { s0 with quantity := some qty }
  match prev with
  | none => (s, [])
  | some p =>
    if p > 0 ∧ qty = 0 then
      let s2 :=
        { s with
            depletion_time := some n
            next_restock := some (predict_next_restock s n)
            warning_sent := false
            depart_sent := false
            restock_alert_sent := false }
      (s2, [Notif.depletion])
    else if p = 0 ∧ qty > 0 then
      let s1 :=
        if truthyQ s.restock_time ∧ truthyQ s.depletion_time then
          record_cycle s (s.restock_time.getD 0) (s.depletion_time.getD 0) n
        else s
      let s2 := { s1 with restock_time := some n, restock_alert_sent := true }
      (s2, [Notif.restock])
    else (s, [])

/-- The countdown-notification part of one `monitor` tick (lines 357-370 of
src/bot.py): when `state['next_restock']` is truthy, fire the warning
notification in `[warn_time, depart_time)` and the departure notification in
`[depart_time, depart_time + 5min)`, each gated by its flag. -/
def tickCountdown (s : MState) (n : ℚ) : MState × List Notif :=
  if truthyQ s.next_restock then
    let depart_time := calc_depart (s.next_restock.getD 0)
    let warn_time := depart_time - 10 * 60 * 1000
    let w :=
      if ¬s.warning_sent ∧ warn_time ≤ n ∧ n < depart_time then
        ({ s with warning_sent := true }, [Notif.warning])
      else (s, [])
    let dep :=
      if ¬w.1.depart_sent ∧ depart_time ≤ n ∧ n < depart_time + 5 * 60 * 1000 then
        ({ w.1 with depart_sent := true }, [Notif.depart])
      else (w.1, [])
    (dep.1, w.2 ++ dep.2)
  else (s, [])

/-- One full `monitor` tick at time `n` with acquisition result `d`.  A
failed acquisition (`none`, both sources unavailable) returns immediately
with no state change and no notification. -/
def tick (s : MState) (n : ℚ) (d : Option Snapshot) : MState × List Notif :=
  match d with
  | none => (s, [])
  | some data =>
    let e := tickEdges s n data
    let c := tickCountdown e.1 n
    (c.1, e.2 ++ c.2)

/-- Run `monitor` over a list of `(now, acquisition result)` ticks,
collecting each tick's notifications. -/
def runTicks (s : MState) : List (ℚ × Option Snapshot) → MState × List (List Notif)
  | [] => (s, [])
  | (n, d) :: rest =>
    let r := tick s n d
    let rr := runTicks r.1 rest
    (rr.1, r.2 :: rr.2)

/-- Edge notifications, as opposed to countdown notifications. -/
def isEdge : Notif → Bool
  | .depletion => true
  | .restock => true
  | _ => false

/-- A concrete monitor state whose cycle history is already full. -/
def fullHistState : MState :=
  { initState with cycle_history := List.replicate 10 ⟨60000, 60000, 120000⟩ }

/-- Monitor states reachable by running ticks with strictly increasing tick
times, starting from the fresh state.  `Reach s t` says `s` is reachable and
every timestamp stored in it was taken at or before time `t`. -/
inductive Reach : MState → ℚ → Prop where
  | init (t : ℚ) : Reach initState t
  | step (s : MState) (t tn : ℚ) (d : Option Snapshot) :
      Reach s t → t < tn → Reach (tick s tn d).1 tn

/-- Invariant tying `avg_restock_delay` to `cycle_history` on reachable
states: the average exists exactly when the history is non-empty, recorded
delays are positive (tick times strictly increase), hence so is the average,
and any stored depletion instant is in the past. -/
def InvC8 (s : MState) (t : ℚ) : Prop :=
  (∀ dt, s.depletion_time = some dt → dt ≤ t) ∧
  (s.cycle_history = [] ↔ s.avg_restock_delay = none) ∧
  (∀ c ∈ s.cycle_history, 0 < c.restock_delay) ∧
  (∀ v, s.avg_restock_delay = some v → 0 < v)

/-- A concrete state reached after five ticks covering one full
depletion-restock cycle (quantities 5, 0, 4, 0, 6 at times 1..5), so its
cycle history is non-empty. -/
def reachableState5 : MState :=
  (tick (tick (tick (tick (tick initState 1 (some ⟨5, 0, "P"⟩)).1
    2 (some ⟨0, 0, "P"⟩)).1 3 (some ⟨4, 0, "P"⟩)).1
    4 (some ⟨0, 0, "P"⟩)).1 5 (some ⟨6, 0, "P"⟩)).1

/-- Modelled from the spec: `reconcile(predicted, actualAuthoritative)` from
section 4.2 of the spec is missing from src/bot.py — the monitor never
consumes an authoritative restock instant (the YATA `update` field is
fetched but unused), so the operation is modelled from the spec's words.  It
computes `error = actualAuthoritative - predicted`; if `|error|` exceeds the
calibration tolerance (default 5 minutes) and an average exists, it applies
the damped correction `averageDelay += error * calibrationFactor` (default
0.3); the authoritative value always becomes the effective predicted
restock instant, regardless of calibration outcome. -/
def reconcile (avgDelay : Option ℚ) (predicted actual : ℚ) : Option ℚ × ℚ :=
  let error := actual - predicted
  let avg2 :=
    match avgDelay with
    | some a => if |error| > 5 * 60 * 1000 then some (a + error * (3 / 10)) else some a
    | none => none
  (avg2, actual)

/-- Modelled from the spec: the restart-recovery flag synthesis of section
4.4 step 3 is missing from src/bot.py (a first tick observing quantity zero
leaves the notification flags untouched and establishes no restock
instant), so it is modelled from the spec's words: mark `warningSent` when
`now` is at or past the warn instant, and mark `departSent` when `now` is
already past the depart window's upper bound. -/
def synthesizeRestartFlags (now warnInstant departInstant departGrace : ℚ) : Bool × Bool :=
  (decide (warnInstant ≤ now), decide (departInstant + departGrace ≤ now))

/-- Modelled from the spec: the window evaluation of section 4.4 step 4 with
a configurable `departGrace` — the warning window is
`[warnInstant, departInstant)` and the depart window is
`[departInstant, departInstant + departGrace)`, each gated by its flag. -/
def evalWindows (now warnInstant departInstant departGrace : ℚ)
    (warningSent departSent : Bool) : List Notif :=
  (if ¬warningSent ∧ warnInstant ≤ now ∧ now < departInstant then [Notif.warning]
   else []) ++
  (if ¬departSent ∧ departInstant ≤ now ∧ now < departInstant + departGrace then
    [Notif.depart]
   else [])

/-- Modelled from the spec: a first tick that observes quantity zero with an
established restock instant synthesizes the flags and then evaluates the
windows with the synthesized flags on that same tick. -/
def restartRecoveryTick (now warnInstant departInstant departGrace : ℚ) :
    (Bool × Bool) × List Notif :=
  let flags := synthesizeRestartFlags now warnInstant departInstant departGrace
  (flags, evalWindows now warnInstant departInstant departGrace flags.1 flags.2)

/-- Characters of the search keys used by `parse_prometheus`. -/
def sharkChars : List Char := ['s', 'h', 'a', 'r', 'k']

/-- Characters of the item id 1485 searched for in the response body. -/
def chars1485 : List Char := ['1', '4', '8', '5']

/-- ASCII lower-casing of one character, as `str.lower()` acts on the ASCII
range (the tracked keys are ASCII). -/
def lowerChar : Char → Char
  | 'A' => 'a'
  | 'B' => 'b'
  | 'C' => 'c'
  | 'D' => 'd'
  | 'E' => 'e'
  | 'F' => 'f'
  | 'G' => 'g'
  | 'H' => 'h'
  | 'I' => 'i'
  | 'J' => 'j'
  | 'K' => 'k'
  | 'L' => 'l'
  | 'M' => 'm'
  | 'N' => 'n'
  | 'O' => 'o'
  | 'P' => 'p'
  | 'Q' => 'q'
  | 'R' => 'r'
  | 'S' => 's'
  | 'T' => 't'
  | 'U' => 'u'
  | 'V' => 'v'
  | 'W' => 'w'
  | 'X' => 'x'
  | 'Y' => 'y'
  | 'Z' => 'z'
  | c => c

/-- `str.lower()` over a character list. -/
def lowerList (l : List Char) : List Char := l.map lowerChar

/-- Python's substring test `needle in hay`. -/
def containsSub (needle : List Char) : List Char → Bool
  | [] => needle.isEmpty
  | c :: t => needle.isPrefixOf (c :: t) || containsSub needle t

/-- Lower-case hexadecimal digit. -/
def hexDigit : Nat → Char
  | 0 => '0'
  | 1 => '1'
  | 2 => '2'
  | 3 => '3'
  | 4 => '4'
  | 5 => '5'
  | 6 => '6'
  | 7 => '7'
  | 8 => '8'
  | 9 => '9'
  | 10 => 'a'
  | 11 => 'b'
  | 12 => 'c'
  | 13 => 'd'
  | 14 => 'e'
  | 15 => 'f'
  | _ => '0'

/-- Four lower-case hex digits, as in a `\uXXXX` escape. -/
def hex4 (n : Nat) : List Char :=
  [hexDigit (n / 4096 % 16), hexDigit (n / 256 % 16), hexDigit (n / 16 % 16),
   hexDigit (n % 16)]

/-- `json.dumps` escaping of one string character (default `ensure_ascii`):
quote and backslash are backslash-escaped, the common control characters use
their short forms, other control characters and all non-ASCII characters
become `\uXXXX` escapes (astral characters as a surrogate pair). -/
def escChar (c : Char) : List Char :=
  if c = Char.ofNat 34 then [Char.ofNat 92, Char.ofNat 34]
  else if c = Char.ofNat 92 then [Char.ofNat 92, Char.ofNat 92]
  else if c = Char.ofNat 10 then [Char.ofNat 92, 'n']
  else if c = Char.ofNat 9 then [Char.ofNat 92, 't']
  else if c = Char.ofNat 13 then [Char.ofNat 92, 'r']
  else if c = Char.ofNat 8 then [Char.ofNat 92, 'b']
  else if c = Char.ofNat 12 then [Char.ofNat 92, 'f']
  else if c.toNat < 32 then Char.ofNat 92 :: 'u' :: hex4 c.toNat
  else if c.toNat < 127 then [c]
  else if c.toNat < 65536 then Char.ofNat 92 :: 'u' :: hex4 c.toNat
  else
    (Char.ofNat 92 :: 'u' :: hex4 (55296 + (c.toNat - 65536) / 1024)) ++
      (Char.ofNat 92 :: 'u' :: hex4 (56320 + (c.toNat - 65536) % 1024))

/-- `json.dumps` escaping of a whole string. -/
def escape (l : List Char) : List Char := l.flatMap escChar

/-- Python `repr` escaping of one string character (the single-quote form;
exotic control characters are left as is, which the tracked keys never
contain). -/
def reprEscChar (c : Char) : List Char :=
  if c = Char.ofNat 92 then [Char.ofNat 92, Char.ofNat 92]
  else if c = Char.ofNat 39 then [Char.ofNat 92, Char.ofNat 39]
  else if c = Char.ofNat 10 then [Char.ofNat 92, 'n']
  else if c = Char.ofNat 9 then [Char.ofNat 92, 't']
  else if c = Char.ofNat 13 then [Char.ofNat 92, 'r']
  else [c]

/-- Python `repr` escaping of a whole string. -/
def reprEscape (l : List Char) : List Char := l.flatMap reprEscChar

mutual
/-- A parsed JSON value as handled by `parse_prometheus` (numbers are the
integers relevant to ids, quantities and costs). -/
inductive Json where
  | null
  | bool (b : Bool)
  | num (n : Int)
  | str (s : String)
  | arr (elems : JList)
  | obj (fields : JObj)
/-- A JSON array's elements. -/
inductive JList where
  | nil
  | cons (hd : Json) (tl : JList)
/-- A JSON object's key-value fields. -/
inductive JObj where
  | onil
  | ocons (key : String) (val : Json) (tl : JObj)
end

/-- `dict.get(key)`: the value of the first field with the given key. -/
def JObj.get : JObj → String → Option Json
  | .onil, _ => none
  | .ocons k v t, key => if k = key then some v else JObj.get t key

/-- Python truthiness of a parsed JSON value (`if not data: return None`). -/
def jsonTruthy : Json → Bool
  | .null => false
  | .bool b => b
  | .num n => n != 0
  | .str s => !s.isEmpty
  | .arr .nil => false
  | .arr (.cons _ _) => true
  | .obj .onil => false
  | .obj (.ocons _ _ _) => true

mutual
/-- `json.dumps` with its default separators, over the embedded values. -/
def dumps : Json → List Char
  | .null => "null".toList
  | .bool true => "true".toList
  | .bool false => "false".toList
  | .num n => (toString n).toList
  | .str s => Char.ofNat 34 :: escape s.toList ++ [Char.ofNat 34]
  | .arr l => '[' :: dumpsL l ++ [']']
  | .obj o => Char.ofNat 123 :: dumpsO o ++ [Char.ofNat 125]
/-- Array elements serialized and joined with a comma-space separator. -/
def dumpsL : JList → List Char
  | .nil => []
  | .cons h .nil => dumps h
  | .cons h (.cons h2 t) => dumps h ++ ',' :: ' ' :: dumpsL (.cons h2 t)
/-- Object fields serialized as quoted key, colon-space, value, joined with
a comma-space separator. -/
def dumpsO : JObj → List Char
  | .onil => []
  | .ocons k v .onil =>
    Char.ofNat 34 :: escape k.toList ++ Char.ofNat 34 :: ':' :: ' ' :: dumps v
  | .ocons k v (.ocons k2 v2 t) =>
    (Char.ofNat 34 :: escape k.toList ++ Char.ofNat 34 :: ':' :: ' ' :: dumps v) ++
      ',' :: ' ' :: dumpsO (.ocons k2 v2 t)
end

mutual
/-- Python `repr` of a parsed JSON value (single-quote string form). -/
def pyRepr : Json → List Char
  | .null => "None".toList
  | .bool true => "True".toList
  | .bool false => "False".toList
  | .num n => (toString n).toList
  | .str s => Char.ofNat 39 :: reprEscape s.toList ++ [Char.ofNat 39]
  | .arr l => '[' :: pyReprL l ++ [']']
  | .obj o => Char.ofNat 123 :: pyReprO o ++ [Char.ofNat 125]
/-- `repr` of array elements, comma-space separated. -/
def pyReprL : JList → List Char
  | .nil => []
  | .cons h .nil => pyRepr h
  | .cons h (.cons h2 t) => pyRepr h ++ ',' :: ' ' :: pyReprL (.cons h2 t)
/-- `repr` of object fields, comma-space separated. -/
def pyReprO : JObj → List Char
  | .onil => []
  | .ocons k v .onil =>
    Char.ofNat 39 :: reprEscape k.toList ++ Char.ofNat 39 :: ':' :: ' ' :: pyRepr v
  | .ocons k v (.ocons k2 v2 t) =>
    (Char.ofNat 39 :: reprEscape k.toList ++ Char.ofNat 39 :: ':' :: ' ' :: pyRepr v) ++
      ',' :: ' ' :: pyReprO (.ocons k2 v2 t)
end

/-- Python `str()` of a parsed JSON value, as applied to the `name` field:
a string is taken as is, scalars print as Python literals, containers print
as their `repr`. -/
def pyStr : Json → List Char
  | .str s => s.toList
  | .null => "None".toList
  | .bool true => "True".toList
  | .bool false => "False".toList
  | .num n => (toString n).toList
  | .arr l => pyRepr (.arr l)
  | .obj o => pyRepr (.obj o)

/-- The comparison `id_val == 1485 or id_val == '1485'` of `parse_prometheus`. -/
def isId1485 : Option Json → Bool
  | some (.num n) => n == 1485
  | some (.str s) => s == "1485"
  | _ => false

/-- The match condition of `parse_prometheus.search` on a dictionary:
`id_val == 1485 or id_val == '1485' or 'shark' in name_val` with
`name_val = str(obj.get('name', '')).lower()`. -/
def matchCond (o : JObj) : Bool :=
  isId1485 (o.get "id") ||
    containsSub sharkChars (lowerList (pyStr ((o.get "name").getD (.str ""))))

/-- The dictionary built by `parse_prometheus.search` for a matching item:
`{'quantity': obj.get('quantity', 0), 'cost': obj.get('cost', 0),
'source': 'Prometheus'}`. -/
structure ParsedItem where
  quantity : Json
  cost : Json
  source : String

/-- The result `search` builds from a matching dictionary. -/
def mkParsed (o : JObj) : ParsedItem :=
  { quantity := (o.get "quantity").getD (.num 0)
    cost := (o.get "cost").getD (.num 0)
    source := "Prometheus" }

mutual
/-- The inner `search` of `parse_prometheus`: depth-first over lists and
dictionary values, returning the result built from the first dictionary
satisfying the match condition (a returned result dictionary is non-empty,
hence truthy, so `if result:` is plain option propagation). -/
def search : Json → Option ParsedItem
  | .null => none
  | .bool _ => none
  | .num _ => none
  | .str _ => none
  | .arr l => searchL l
  | .obj o => if matchCond o then some (mkParsed o) else searchO o
/-- `search` over the items of a list, first hit wins. -/
def searchL : JList → Option ParsedItem
  | .nil => none
  | .cons h t =>
    match search h with
    | some r => some r
    | none => searchL t
/-- `search` over the values of a dictionary, first hit wins. -/
def searchO : JObj → Option ParsedItem
  | .onil => none
  | .ocons _ v t =>
    match search v with
    | some r => some r
    | none => searchO t
end

mutual
/-- The dictionary `search` would match, instead of the built result: used
to state which item a payload makes `parse_prometheus` report. -/
def firstMatch : Json → Option JObj
  | .null => none
  | .bool _ => none
  | .num _ => none
  | .str _ => none
  | .arr l => firstMatchL l
  | .obj o => if matchCond o then some o else firstMatchO o
/-- `firstMatch` over the items of a list. -/
def firstMatchL : JList → Option JObj
  | .nil => none
  | .cons h t =>
    match firstMatch h with
    | some r => some r
    | none => firstMatchL t
/-- `firstMatch` over the values of a dictionary. -/
def firstMatchO : JObj → Option JObj
  | .onil => none
  | .ocons _ v t =>
    match firstMatch v with
    | some r => some r
    | none => firstMatchO t
end

/-- `parse_prometheus(data)` from src/bot.py: reject falsy data, reject
responses whose lower-cased `json.dumps` body mentions neither `shark` nor
`1485`, then run the nested search. -/
def parse_prometheus (data : Json) : Option ParsedItem :=
  if !jsonTruthy data then none
  else
    let body := lowerList (dumps data)
    if !containsSub sharkChars body && !containsSub chars1485 body then none
    else search data

/-- Membership of a value among a JSON array's elements. -/
def JList.Mem (j : Json) : JList → Prop
  | .nil => False
  | .cons h t => j = h ∨ JList.Mem j t

/-- Membership of a value among a JSON object's field values. -/
def JObj.MemVal (j : Json) : JObj → Prop
  | .onil => False
  | .ocons _ v t => j = v ∨ JObj.MemVal j t

/-- `NestedIn x y`: the value `x` occurs somewhere inside `y` (the traversal
order of `search`). -/
inductive NestedIn (x : Json) : Json → Prop where
  | refl : NestedIn x x
  | inArr (j : Json) (l : JList) : NestedIn x j → JList.Mem j l → NestedIn x (.arr l)
  | inObj (j : Json) (o : JObj) : NestedIn x j → JObj.MemVal j o → NestedIn x (.obj o)

theorem tickCountdown_quantity (s : MState) (n : ℚ) :
    (tickCountdown s n).1.quantity = s.quantity := by
  unfold tickCountdown; dsimp only; split_ifs <;> rfl

theorem tickCountdown_depletion_time (s : MState) (n : ℚ) :
    (tickCountdown s n).1.depletion_time = s.depletion_time := by
  unfold tickCountdown; dsimp only; split_ifs <;> rfl

theorem tickCountdown_restock_time (s : MState) (n : ℚ) :
    (tickCountdown s n).1.restock_time = s.restock_time := by
  unfold tickCountdown; dsimp only; split_ifs <;> rfl

theorem tickCountdown_next_restock (s : MState) (n : ℚ) :
    (tickCountdown s n).1.next_restock = s.next_restock := by
  unfold tickCountdown; dsimp only; split_ifs <;> rfl

theorem tickCountdown_cycle_history (s : MState) (n : ℚ) :
    (tickCountdown s n).1.cycle_history = s.cycle_history := by
  unfold tickCountdown; dsimp only; split_ifs <;> rfl

theorem tickCountdown_avg (s : MState) (n : ℚ) :
    (tickCountdown s n).1.avg_restock_delay = s.avg_restock_delay := by
  unfold tickCountdown; dsimp only; split_ifs <;> rfl

theorem tickCountdown_no_edges (s : MState) (n : ℚ) :
    (tickCountdown s n).2.filter isEdge = [] := by
  unfold tickCountdown; dsimp only; split_ifs <;> rfl

/-- C9: when snapshot acquisition fails (both sources yield nothing), the
entire tick is skipped: the monitor state is returned unchanged and no
notification is sent. -/
theorem failed_acquisition_skips_tick (s : MState) (n : ℚ) :
    tick s n none = (s, []) := rfl

/-- C5: after a call to `record_cycle` from a state whose history respects
the length-10 bound, the history still has at most 10 records; appending an
11th evicts exactly the oldest record (FIFO) leaving the 10 most recent in
order, a non-full history is appended to directly, and `avg_restock_delay`
is the arithmetic mean of the delays of the retained records. -/
theorem record_cycle_bounded_mean (s : MState) (r d nr : ℚ)
    (hlen : s.cycle_history.length ≤ 10) :
    (record_cycle s r d nr).cycle_history.length ≤ 10 ∧
    (s.cycle_history.length = 10 →
      (record_cycle s r d nr).cycle_history =
        s.cycle_history.tail ++ [⟨d - r, nr - d, nr - r⟩]) ∧
    (s.cycle_history.length < 10 →
      (record_cycle s r d nr).cycle_history =
        s.cycle_history ++ [⟨d - r, nr - d, nr - r⟩]) ∧
    (record_cycle s r d nr).avg_restock_delay =
      some (((record_cycle s r d nr).cycle_history.map CycleRecord.restock_delay).sum /
        ((record_cycle s r d nr).cycle_history.length : ℚ)) := by
  unfold record_cycle
  dsimp only
  by_cases h10 : s.cycle_history.length = 10
  · have hne : s.cycle_history ≠ [] := by
      intro h; rw [h] at h10; simp at h10
    have hcond : (s.cycle_history ++ [(⟨d - r, nr - d, nr - r⟩ : CycleRecord)]).length > 10 := by
      simp [h10]
    rw [if_pos hcond]
    refine ⟨?_, fun _ => ?_, fun hlt => absurd h10 (by omega), rfl⟩
    · rw [List.tail_append_of_ne_nil hne]
      simp [List.length_tail, h10]
    · rw [List.tail_append_of_ne_nil hne]
  · have hlt : s.cycle_history.length < 10 := lt_of_le_of_ne hlen h10
    have hcond : ¬(s.cycle_history ++ [(⟨d - r, nr - d, nr - r⟩ : CycleRecord)]).length > 10 := by
      simp; omega
    rw [if_neg hcond]
    exact ⟨by simp; omega, fun h => absurd h h10, fun _ => rfl, rfl⟩


theorem record_cycle_bounded_mean_witness :
    fullHistState.cycle_history.length = 10 ∧
    (record_cycle fullHistState 1 2 3).cycle_history =
      fullHistState.cycle_history.tail ++ [⟨1, 1, 2⟩] :=
  ⟨by simp [fullHistState],
    by
      have h := (record_cycle_bounded_mean fullHistState 1 2 3
        (by simp [fullHistState])).2.1 (by simp [fullHistState])
      norm_num at h
      exact h⟩

theorem tickEdges_first (s : MState) (n : ℚ) (d : Snapshot) (h : s.quantity = none) :
    tickEdges s n d = ({ s with quantity := some d.quantity }, []) := by
  unfold tickEdges; rw [h]

theorem tickEdges_no_edge (s : MState) (n : ℚ) (d : Snapshot) (p : Int)
    (h : s.quantity = some p) (h1 : ¬(p > 0 ∧ d.quantity = 0))
    (h2 : ¬(p = 0 ∧ d.quantity > 0)) :
    tickEdges s n d = ({ s with quantity := some d.quantity }, []) := by
  unfold tickEdges; rw [h]; dsimp only; rw [if_neg h1, if_neg h2]

theorem tickEdges_depletion (s : MState) (n : ℚ) (d : Snapshot) (p : Int)
    (h : s.quantity = some p) (hp : p > 0) (hq : d.quantity = 0) :
    tickEdges s n d =
      ({ s with
          quantity := some d.quantity
          depletion_time := some n
          next_restock := some (predict_next_restock { s with quantity := some d.quantity } n)
          warning_sent := false
          depart_sent := false
          restock_alert_sent := false }, [Notif.depletion]) := by
  unfold tickEdges; rw [h]; dsimp only; rw [if_pos ⟨hp, hq⟩]

theorem tickEdges_restock_norec (s : MState) (n : ℚ) (d : Snapshot)
    (h : s.quantity = some 0) (hq : d.quantity > 0)
    (hr : ¬(truthyQ s.restock_time ∧ truthyQ s.depletion_time)) :
    tickEdges s n d =
      ({ s with
          quantity := some d.quantity
          restock_time := some n
          restock_alert_sent := true }, [Notif.restock]) := by
  unfold tickEdges; rw [h]; dsimp only
  rw [if_neg (by simp), if_pos ⟨rfl, hq⟩, if_neg (by simpa using hr)]

theorem tickEdges_restock_rec (s : MState) (n : ℚ) (d : Snapshot)
    (h : s.quantity = some 0) (hq : d.quantity > 0)
    (hr : truthyQ s.restock_time) (hd : truthyQ s.depletion_time) :
    tickEdges s n d =
      ({ record_cycle { s with quantity := some d.quantity }
            (s.restock_time.getD 0) (s.depletion_time.getD 0) n with
          quantity := some d.quantity
          restock_time := some n
          restock_alert_sent := true }, [Notif.restock]) := by
  unfold tickEdges; rw [h]; dsimp only
  rw [if_neg (by simp), if_pos ⟨rfl, hq⟩, if_pos ⟨hr, hd⟩]
  simp [record_cycle]

theorem tick_filter_edges (s : MState) (n : ℚ) (d : Snapshot) :
    ((tick s n (some d)).2).filter isEdge = ((tickEdges s n d).2).filter isEdge := by
  unfold tick; dsimp only
  rw [List.filter_append, tickCountdown_no_edges, List.append_nil]

/-- C1: over the quantity sequence `[5,5,0,0,0,12]` starting from the fresh
state (last observed quantity unknown), exactly one depletion notification
fires, on the third tick (the first observation of 0), and exactly one
restock notification fires, on the sixth tick (the observation of 12);
repeated quantities and the very first observation fire no edge, whatever
the tick times, costs and sources are. -/
theorem monitor_edge_pattern (t1 t2 t3 t4 t5 t6 : ℚ) (d1 d2 d3 d4 d5 d6 : Snapshot)
    (h1 : d1.quantity = 5) (h2 : d2.quantity = 5) (h3 : d3.quantity = 0)
    (h4 : d4.quantity = 0) (h5 : d5.quantity = 0) (h6 : d6.quantity = 12) :
    ((runTicks initState
      [(t1, some d1), (t2, some d2), (t3, some d3),
       (t4, some d4), (t5, some d5), (t6, some d6)]).2.map
        (fun l => l.filter isEdge)) =
      [[], [], [Notif.depletion], [], [], [Notif.restock]] := by
  obtain ⟨q1, c1, r1⟩ := d1; obtain ⟨q2, c2, r2⟩ := d2; obtain ⟨q3, c3, r3⟩ := d3
  obtain ⟨q4, c4, r4⟩ := d4; obtain ⟨q5, c5, r5⟩ := d5; obtain ⟨q6, c6, r6⟩ := d6
  dsimp only at h1 h2 h3 h4 h5 h6
  subst h1 h2 h3 h4 h5 h6
  simp only [runTicks, List.map_cons, List.map_nil, tick]
  have E1 := tickEdges_first initState t1 ⟨5, c1, r1⟩ rfl
  rw [E1]
  dsimp only
  set X2 := (tickCountdown { initState with quantity := some 5 } t1).1 with hX2
  have hq2 : X2.quantity = some 5 := by rw [hX2, tickCountdown_quantity]
  have hrt2 : X2.restock_time = none := by rw [hX2, tickCountdown_restock_time]; rfl
  have E2 := tickEdges_no_edge X2 t2 ⟨5, c2, r2⟩ 5 hq2 (by norm_num) (by norm_num)
  rw [E2]
  dsimp only
  set X3 := (tickCountdown { X2 with quantity := some 5 } t2).1 with hX3
  have hq3 : X3.quantity = some 5 := by rw [hX3, tickCountdown_quantity]
  have hrt3 : X3.restock_time = none := by rw [hX3, tickCountdown_restock_time]; exact hrt2
  have E3 := tickEdges_depletion X3 t3 ⟨0, c3, r3⟩ 5 hq3 (by norm_num) rfl
  rw [E3]
  dsimp only
  set X4 := (tickCountdown
    { X3 with
        quantity := some 0
        depletion_time := some t3
        next_restock := some (predict_next_restock { X3 with quantity := some 0 } t3)
        warning_sent := false
        depart_sent := false
        restock_alert_sent := false } t3).1 with hX4
  have hq4 : X4.quantity = some 0 := by rw [hX4, tickCountdown_quantity]
  have hrt4 : X4.restock_time = none := by rw [hX4, tickCountdown_restock_time]; exact hrt3
  have E4 := tickEdges_no_edge X4 t4 ⟨0, c4, r4⟩ 0 hq4 (by norm_num) (by norm_num)
  rw [E4]
  dsimp only
  set X5 := (tickCountdown { X4 with quantity := some 0 } t4).1 with hX5
  have hq5 : X5.quantity = some 0 := by rw [hX5, tickCountdown_quantity]
  have hrt5 : X5.restock_time = none := by rw [hX5, tickCountdown_restock_time]; exact hrt4
  have E5 := tickEdges_no_edge X5 t5 ⟨0, c5, r5⟩ 0 hq5 (by norm_num) (by norm_num)
  rw [E5]
  dsimp only
  set X6 := (tickCountdown { X5 with quantity := some 0 } t5).1 with hX6
  have hq6 : X6.quantity = some 0 := by rw [hX6, tickCountdown_quantity]
  have hrt6 : X6.restock_time = none := by rw [hX6, tickCountdown_restock_time]; exact hrt5
  have E6 := tickEdges_restock_norec X6 t6 ⟨12, c6, r6⟩ hq6 (by norm_num)
    (by rw [hrt6]; simp [truthyQ])
  rw [E6]
  dsimp only
  simp only [List.filter_append, tickCountdown_no_edges, List.append_nil, List.nil_append]
  rfl

theorem monitor_edge_pattern_witness :
    ((runTicks initState
      [(1, some ⟨5, 0, "P"⟩), (2, some ⟨5, 0, "P"⟩), (3, some ⟨0, 0, "P"⟩),
       (4, some ⟨0, 0, "P"⟩), (5, some ⟨0, 0, "P"⟩), (6, some ⟨12, 0, "P"⟩)]).2.map
        (fun l => l.filter isEdge)) =
      [[], [], [Notif.depletion], [], [], [Notif.restock]] :=
  monitor_edge_pattern 1 2 3 4 5 6 ⟨5, 0, "P"⟩ ⟨5, 0, "P"⟩ ⟨0, 0, "P"⟩ ⟨0, 0, "P"⟩
    ⟨0, 0, "P"⟩ ⟨12, 0, "P"⟩ rfl rfl rfl rfl rfl rfl

/-- C4 counterexample: a concrete run refuting the claim that a restock edge
clears the predicted restock instant and that no warning or depart
notification can fire while quantity is positive.  After the restock edge of
the third tick, `next_restock` is still set, and the fourth tick fires the
warning notification although the observed quantity is 7. -/
theorem restock_edge_clears_counterexample :
    (runTicks initState
      [(0, some ⟨5, 0, "P"⟩), (60000, some ⟨0, 0, "P"⟩),
       (120000, some ⟨7, 0, "P"⟩)]).1.next_restock = some 7260000 ∧
    (runTicks initState
      [(0, some ⟨5, 0, "P"⟩), (60000, some ⟨0, 0, "P"⟩),
       (120000, some ⟨7, 0, "P"⟩), (900000, some ⟨7, 0, "P"⟩)]).2 =
      [[], [Notif.depletion], [Notif.restock], [Notif.warning]] ∧
    (runTicks initState
      [(0, some ⟨5, 0, "P"⟩), (60000, some ⟨0, 0, "P"⟩),
       (120000, some ⟨7, 0, "P"⟩), (900000, some ⟨7, 0, "P"⟩)]).1.quantity = some 7 := by
  refine ⟨?_, ?_, ?_⟩ <;>
    norm_num [runTicks, tick, tickEdges, tickCountdown, predict_next_restock,
      calc_depart, truthyQ, initState]

theorem tickEdges_restock_fields (s : MState) (n : ℚ) (d : Snapshot)
    (h : s.quantity = some 0) (hq : d.quantity > 0) :
    (tickEdges s n d).1.next_restock = s.next_restock ∧
    (tickEdges s n d).1.warning_sent = s.warning_sent ∧
    (tickEdges s n d).1.depart_sent = s.depart_sent ∧
    (tickEdges s n d).2 = [Notif.restock] := by
  unfold tickEdges; rw [h]; dsimp only
  rw [if_neg (by simp), if_pos ⟨rfl, hq⟩]
  split_ifs <;> simp [record_cycle]

theorem tickCountdown_warning_fires (s : MState) (n r : ℚ)
    (hr : s.next_restock = some r) (hr0 : r ≠ 0) (hw : s.warning_sent = false)
    (h1 : calc_depart r - 10 * 60 * 1000 ≤ n) (h2 : n < calc_depart r) :
    (tickCountdown s n).2 = [Notif.warning] := by
  unfold tickCountdown
  rw [hr, hw]
  simp only [Option.getD_some]
  rw [if_pos (show truthyQ (some r) = true by simp [truthyQ, hr0])]
  dsimp only
  rw [if_pos (show ¬(false = true) ∧ calc_depart r - 10 * 60 * 1000 ≤ n ∧ n < calc_depart r
    from ⟨by simp, h1, h2⟩)]
  dsimp only
  rw [if_neg (show ¬(¬(({ s with next_restock := some r, warning_sent := true } : MState).depart_sent = true) ∧
      calc_depart r ≤ n ∧ n < calc_depart r + 5 * 60 * 1000) by
    rintro ⟨-, hle, -⟩; exact absurd h2 (not_lt.mpr hle))]
  simp

/-- C4 (amended): on a restock edge the predicted restock instant is left
unchanged, not cleared, and the countdown windows keep being evaluated
whenever a predicted instant is set, regardless of the observed quantity: on
the restock tick itself, if the warning window contains `now` and the
warning flag is unset, the warning notification fires even though the
observed quantity is positive. -/
theorem restock_edge_keeps_prediction (s : MState) (n : ℚ) (d : Snapshot) (r : ℚ)
    (hq : s.quantity = some 0) (hd : d.quantity > 0)
    (hr : s.next_restock = some r) (hr0 : r ≠ 0)
    (hw : s.warning_sent = false)
    (h1 : calc_depart r - 10 * 60 * 1000 ≤ n) (h2 : n < calc_depart r) :
    (tick s n (some d)).1.next_restock = some r ∧
    Notif.warning ∈ (tick s n (some d)).2 := by
  have E := tickEdges_restock_fields s n d hq hd
  constructor
  · simp only [tick]
    rw [tickCountdown_next_restock, E.1, hr]
  · simp only [tick]
    have hc := tickCountdown_warning_fires (tickEdges s n d).1 n r
      (by rw [E.1, hr]) hr0 (by rw [E.2.1, hw]) h1 h2
    rw [hc, E.2.2.2]
    simp

theorem restock_edge_keeps_prediction_witness :
    (tick ⟨some 0, some 60000, none, some 7260000, false, false, false, [], none⟩
      900000 (some ⟨7, 0, "P"⟩)).1.next_restock = some 7260000 ∧
    Notif.warning ∈
      (tick ⟨some 0, some 60000, none, some 7260000, false, false, false, [], none⟩
        900000 (some ⟨7, 0, "P"⟩)).2 :=
  restock_edge_keeps_prediction
    ⟨some 0, some 60000, none, some 7260000, false, false, false, [], none⟩
    900000 ⟨7, 0, "P"⟩ 7260000 rfl (by norm_num) rfl (by norm_num) rfl
    (by norm_num [calc_depart]) (by norm_num [calc_depart])

/-- C6 counterexample: a concrete run refuting the claim that the first
completed depletion-to-restock cycle after startup closes a CycleRecord.
Quantities `[5, 0, 3]` produce a depletion edge and then a restock edge with
the depletion instant known, yet `cycle_history` stays empty, because
`record_cycle` is only called when a previous restock instant also exists. -/
theorem first_cycle_no_record_counterexample :
    (runTicks initState
      [(1, some ⟨5, 0, "P"⟩), (2, some ⟨0, 0, "P"⟩)]).1.depletion_time = some 2 ∧
    (runTicks initState
      [(1, some ⟨5, 0, "P"⟩), (2, some ⟨0, 0, "P"⟩), (3, some ⟨3, 0, "P"⟩)]).2 =
      [[], [Notif.depletion], [Notif.restock]] ∧
    (runTicks initState
      [(1, some ⟨5, 0, "P"⟩), (2, some ⟨0, 0, "P"⟩), (3, some ⟨3, 0, "P"⟩)]).1.cycle_history =
      [] := by
  refine ⟨?_, ?_, ?_⟩ <;>
    norm_num [runTicks, tick, tickEdges, tickCountdown, predict_next_restock,
      calc_depart, truthyQ, initState]

theorem record_cycle_getLast (s : MState) (r d nr : ℚ) :
    (record_cycle s r d nr).cycle_history.getLast? = some ⟨d - r, nr - d, nr - r⟩ := by
  unfold record_cycle; dsimp only
  split_ifs with h
  · rw [List.tail_append_of_ne_nil (by
      intro hnil
      rw [hnil] at h
      simp at h)]
    simp
  · simp

/-- C6 (amended): a restock edge closes a CycleRecord with delay
`now - depletionInstant` only when both a prior nonzero restock instant and
a prior nonzero depletion instant are known; the record is then appended as
the most recent history entry.  On the first completed cycle after startup
no earlier restock instant exists, so no record is closed (see the
counterexample). -/
theorem restock_edge_closes_cycle (s : MState) (n : ℚ) (d : Snapshot) (r dt : ℚ)
    (hq : s.quantity = some 0) (hd : d.quantity > 0)
    (hrt : s.restock_time = some r) (hr0 : r ≠ 0)
    (hdt : s.depletion_time = some dt) (hdt0 : dt ≠ 0) :
    ((tick s n (some d)).1.cycle_history).getLast? = some ⟨dt - r, n - dt, n - r⟩ ∧
    Notif.restock ∈ (tick s n (some d)).2 := by
  have E := tickEdges_restock_rec s n d hq hd
    (by rw [hrt]; simp [truthyQ, hr0]) (by rw [hdt]; simp [truthyQ, hdt0])
  constructor
  · simp only [tick]
    rw [tickCountdown_cycle_history, E]
    dsimp only
    rw [hrt, hdt]
    simp only [Option.getD_some]
    exact record_cycle_getLast _ r dt n
  · simp only [tick]
    rw [E]
    simp

theorem restock_edge_closes_cycle_witness :
    ((tick ⟨some 0, some 120000, some 60000, none, false, false, false, [], none⟩
      180000 (some ⟨4, 0, "P"⟩)).1.cycle_history).getLast? =
      some ⟨60000, 60000, 120000⟩ ∧
    Notif.restock ∈
      (tick ⟨some 0, some 120000, some 60000, none, false, false, false, [], none⟩
        180000 (some ⟨4, 0, "P"⟩)).2 := by
  have h := restock_edge_closes_cycle
    ⟨some 0, some 120000, some 60000, none, false, false, false, [], none⟩
    180000 ⟨4, 0, "P"⟩ 60000 120000 rfl (by norm_num) rfl (by norm_num) rfl (by norm_num)
  norm_num at h
  exact h

/-- C7 counterexample: the depart window in src/bot.py is 5 minutes wide,
not 30.  With a predicted restock at 7260000 the depart instant is 1500000;
at tick time 2100000 — 10 minutes after the depart instant, so inside the
claimed 30-minute window `[1500000, 3300000)` — with the depart flag unset,
the tick fires nothing. -/
theorem depart_window_thirty_minutes_counterexample :
    (calc_depart 7260000 ≤ 2100000 ∧
      (2100000 : ℚ) < calc_depart 7260000 + 30 * 60 * 1000 ∧
      (⟨some 0, some 60000, none, some 7260000, true, false, false, [], none⟩ :
        MState).depart_sent = false) ∧
    (tick ⟨some 0, some 60000, none, some 7260000, true, false, false, [], none⟩
      2100000 (some ⟨0, 0, "P"⟩)).2 = [] := by
  constructor
  · refine ⟨?_, ?_, rfl⟩ <;> norm_num [calc_depart]
  · norm_num [tick, tickEdges, tickCountdown, truthyQ, calc_depart]

theorem tickCountdown_depart_fires (s : MState) (n r : ℚ)
    (hr : s.next_restock = some r) (hr0 : r ≠ 0) (hds : s.depart_sent = false)
    (hge : calc_depart r ≤ n) (hlt : n < calc_depart r + 5 * 60 * 1000) :
    (tickCountdown s n).2 = [Notif.depart] ∧ (tickCountdown s n).1.depart_sent = true := by
  unfold tickCountdown
  rw [hr]
  simp only [Option.getD_some]
  rw [if_pos (show truthyQ (some r) = true by simp [truthyQ, hr0])]
  dsimp only
  rw [if_neg (show ¬(¬(s.warning_sent = true) ∧ calc_depart r - 10 * 60 * 1000 ≤ n ∧
      n < calc_depart r) by rintro ⟨-, -, hlt2⟩; exact absurd hlt2 (not_lt.mpr hge))]
  dsimp only
  rw [hds]
  rw [if_pos (show ¬(false = true) ∧ calc_depart r ≤ n ∧ n < calc_depart r + 5 * 60 * 1000
    from ⟨by simp, hge, hlt⟩)]
  simp

theorem tickCountdown_depart_suppressed (s : MState) (n : ℚ)
    (hds : s.depart_sent = true) :
    Notif.depart ∉ (tickCountdown s n).2 := by
  unfold tickCountdown
  dsimp only
  split_ifs with hA hB hC hD <;> simp_all

/-- C7 (amended): the depart window of src/bot.py is
`[depart_time, depart_time + 5 minutes)` — the grace is the hard-coded 5
minutes, not 30.  While the quantity stays zero and a nonzero predicted
restock instant is set, any tick inside that window with the depart flag
unset fires the depart notification (a late first observation inside the
window is still sent), and a tick with the flag already set fires nothing. -/
theorem depart_window_five_minutes (s : MState) (n : ℚ) (d : Snapshot) (r : ℚ)
    (hq : s.quantity = some 0) (hd : d.quantity = 0)
    (hr : s.next_restock = some r) (hr0 : r ≠ 0) :
    (s.depart_sent = false → calc_depart r ≤ n → n < calc_depart r + 5 * 60 * 1000 →
      Notif.depart ∈ (tick s n (some d)).2 ∧ (tick s n (some d)).1.depart_sent = true) ∧
    (s.depart_sent = true → Notif.depart ∉ (tick s n (some d)).2) := by
  have E := tickEdges_no_edge s n d 0 hq (by simp [hd]) (by simp [hd])
  constructor
  · intro hds hge hlt
    have hc := tickCountdown_depart_fires { s with quantity := some d.quantity } n r
      (by dsimp only; exact hr) hr0 (by dsimp only; exact hds) hge hlt
    constructor
    · simp only [tick]
      rw [E]
      dsimp only
      rw [hc.1]
      simp
    · simp only [tick]
      rw [E]
      dsimp only
      exact hc.2
  · intro hds
    simp only [tick]
    rw [E]
    dsimp only
    simp only [List.nil_append]
    exact tickCountdown_depart_suppressed { s with quantity := some d.quantity } n
      (by dsimp only; exact hds)

theorem depart_window_five_minutes_witness :
    Notif.depart ∈
      (tick ⟨some 0, some 60000, none, some 7260000, false, false, false, [], none⟩
        1600000 (some ⟨0, 0, "P"⟩)).2 ∧
    (tick ⟨some 0, some 60000, none, some 7260000, false, false, false, [], none⟩
      1600000 (some ⟨0, 0, "P"⟩)).1.depart_sent = true :=
  (depart_window_five_minutes
    ⟨some 0, some 60000, none, some 7260000, false, false, false, [], none⟩
    1600000 ⟨0, 0, "P"⟩ 7260000 rfl rfl rfl (by norm_num)).1 rfl
    (by norm_num [calc_depart]) (by norm_num [calc_depart])

theorem avg_pos_of_delays_pos (h : List CycleRecord) (hne : h ≠ [])
    (hall : ∀ c ∈ h, 0 < c.restock_delay) :
    0 < (h.map CycleRecord.restock_delay).sum / (h.length : ℚ) := by
  apply div_pos
  · apply List.sum_pos
    · intro y hy
      obtain ⟨x, hx, rfl⟩ := List.mem_map.mp hy
      exact hall x hx
    · simpa using hne
  · exact_mod_cast List.length_pos.mpr hne

theorem record_cycle_inv (s : MState) (rt dtv nr : ℚ)
    (h3 : ∀ c ∈ s.cycle_history, 0 < c.restock_delay)
    (hpos : 0 < nr - dtv) :
    (record_cycle s rt dtv nr).cycle_history ≠ [] ∧
    (∀ c ∈ (record_cycle s rt dtv nr).cycle_history, 0 < c.restock_delay) ∧
    (∀ v, (record_cycle s rt dtv nr).avg_restock_delay = some v → 0 < v) := by
  unfold record_cycle
  dsimp only
  have hall : ∀ x ∈ s.cycle_history ++ [(⟨dtv - rt, nr - dtv, nr - rt⟩ : CycleRecord)],
      0 < x.restock_delay := by
    intro x hx
    rcases List.mem_append.mp hx with hmem | hmem
    · exact h3 x hmem
    · rw [List.mem_singleton.mp hmem]
      exact hpos
  split_ifs with hlen
  · have hne : (s.cycle_history ++ [(⟨dtv - rt, nr - dtv, nr - rt⟩ : CycleRecord)]).tail ≠ [] := by
      intro hnil
      have hL := congrArg List.length hnil
      rw [List.length_tail] at hL
      simp only [List.length_append, List.length_cons, List.length_nil] at hL hlen
      omega
    have hsub : ∀ x ∈ (s.cycle_history ++ [(⟨dtv - rt, nr - dtv, nr - rt⟩ : CycleRecord)]).tail,
        0 < x.restock_delay := fun x hx => hall x (List.mem_of_mem_tail hx)
    refine ⟨hne, hsub, ?_⟩
    intro v hv
    rw [Option.some.injEq] at hv
    rw [← hv]
    exact avg_pos_of_delays_pos _ hne hsub
  · have hne : s.cycle_history ++ [(⟨dtv - rt, nr - dtv, nr - rt⟩ : CycleRecord)] ≠ [] := by
      simp
    refine ⟨hne, hall, ?_⟩
    intro v hv
    rw [Option.some.injEq] at hv
    rw [← hv]
    exact avg_pos_of_delays_pos _ hne hall

theorem tickEdges_inv (s : MState) (t tn : ℚ) (d : Snapshot)
    (IH : InvC8 s t) (hlt : t < tn) : InvC8 (tickEdges s tn d).1 tn := by
  obtain ⟨I1, I2, I3, I4⟩ := IH
  have I1n : ∀ dt, s.depletion_time = some dt → dt ≤ tn :=
    fun dt hdt => le_of_lt (lt_of_le_of_lt (I1 dt hdt) hlt)
  unfold tickEdges
  dsimp only
  cases hq : s.quantity with
  | none => exact ⟨I1n, I2, I3, I4⟩
  | some p =>
    dsimp only
    split_ifs with h1 h2 h3
    · -- depletion edge: depletion_time becomes the current tick time
      refine ⟨?_, I2, I3, I4⟩
      intro dt hdt
      rw [Option.some.injEq] at hdt
      rw [← hdt]
    · -- restock edge closing a cycle
      obtain ⟨hrt, hdt⟩ := h3
      have hdts : ∃ dtv, s.depletion_time = some dtv ∧ dtv ≠ 0 := by
        cases hds : s.depletion_time with
        | none => rw [hds] at hdt; simp [truthyQ] at hdt
        | some dtv =>
          rw [hds] at hdt
          simp only [truthyQ, bne_iff_ne, ne_eq] at hdt
          exact ⟨dtv, rfl, hdt⟩
      obtain ⟨dtv, hds, -⟩ := hdts
      have hpos : 0 < tn - ({ s with quantity := some d.quantity } : MState).depletion_time.getD 0 := by
        dsimp only
        rw [hds, Option.getD_some]
        have := I1 dtv hds
        linarith
      have R := record_cycle_inv { s with quantity := some d.quantity }
        (({ s with quantity := some d.quantity } : MState).restock_time.getD 0)
        (({ s with quantity := some d.quantity } : MState).depletion_time.getD 0)
        tn I3 hpos
      refine ⟨?_, ?_, R.2.1, R.2.2⟩
      · intro dt hdt2
        dsimp only [record_cycle] at hdt2
        exact I1n dt hdt2
      · constructor
        · intro hhist
          exact absurd hhist R.1
        · intro havg
          dsimp only [record_cycle] at havg
          exact absurd havg (by simp)
    · -- restock edge without a closable cycle
      exact ⟨I1n, I2, I3, I4⟩
    · -- no edge
      exact ⟨I1n, I2, I3, I4⟩

theorem reach_inv (s : MState) (t : ℚ) (h : Reach s t) : InvC8 s t := by
  induction h with
  | init t =>
    exact ⟨by intro dt hdt; simp [initState] at hdt, by simp [initState],
      by simp [initState], by simp [initState]⟩
  | step s t tn d hr hlt IH =>
    obtain ⟨I1, I2, I3, I4⟩ := IH
    cases d with
    | none =>
      exact ⟨fun dt hdt => le_of_lt (lt_of_le_of_lt (I1 dt hdt) hlt), I2, I3, I4⟩
    | some data =>
      have hE := tickEdges_inv s t tn data ⟨I1, I2, I3, I4⟩ hlt
      obtain ⟨E1, E2, E3, E4⟩ := hE
      simp only [tick]
      exact ⟨by rw [tickCountdown_depletion_time]; exact E1,
        by rw [tickCountdown_cycle_history, tickCountdown_avg]; exact E2,
        by rw [tickCountdown_cycle_history]; exact E3,
        by rw [tickCountdown_avg]; exact E4⟩

/-- C8: on every reachable monitor state (ticks at strictly increasing
times), `predict_next_restock` returns `depletion_time + avg_restock_delay`
whenever the cycle history is non-empty, and returns the 2-hour default
fallback exactly when the cycle history is empty. -/
theorem predict_fallback_iff_empty_history (s : MState) (t : ℚ) (h : Reach s t) (dep : ℚ) :
    (s.cycle_history = [] → predict_next_restock s dep = dep + 2 * 60 * 60 * 1000) ∧
    (s.cycle_history ≠ [] →
      ∃ v, s.avg_restock_delay = some v ∧ predict_next_restock s dep = dep + v) := by
  obtain ⟨I1, I2, I3, I4⟩ := reach_inv s t h
  constructor
  · intro hemp
    have hnone : s.avg_restock_delay = none := I2.mp hemp
    unfold predict_next_restock
    rw [hnone]
    simp [truthyQ]
  · intro hne
    cases hav : s.avg_restock_delay with
    | none => exact absurd (I2.mpr hav) hne
    | some v =>
      refine ⟨v, rfl, ?_⟩
      have hv := I4 v hav
      unfold predict_next_restock
      rw [hav]
      simp [truthyQ, ne_of_gt hv]

theorem predict_fallback_iff_empty_history_witness :
    reachableState5.cycle_history ≠ [] ∧
    ∃ v, reachableState5.avg_restock_delay = some v ∧
      predict_next_restock reachableState5 100 = 100 + v := by
  have hne : reachableState5.cycle_history ≠ [] := by
    norm_num [reachableState5, tick, tickEdges, tickCountdown, record_cycle,
      predict_next_restock, calc_depart, truthyQ, initState]
  have R5 : Reach reachableState5 5 := by
    have R1 := Reach.step initState 0 1 (some ⟨5, 0, "P"⟩) (Reach.init 0) (by norm_num)
    have R2 := Reach.step _ 1 2 (some ⟨0, 0, "P"⟩) R1 (by norm_num)
    have R3 := Reach.step _ 2 3 (some ⟨4, 0, "P"⟩) R2 (by norm_num)
    have R4 := Reach.step _ 3 4 (some ⟨0, 0, "P"⟩) R3 (by norm_num)
    exact Reach.step _ 4 5 (some ⟨6, 0, "P"⟩) R4 (by norm_num)
  exact ⟨hne, (predict_fallback_iff_empty_history reachableState5 5 R5 100).2 hne⟩

/-- C2: reconciling a newly received authoritative restock instant against
an existing prediction when an average delay exists: if the absolute error
exceeds the 5-minute calibration tolerance, the average is updated by the
damped correction `averageDelay + 0.3 * error`; if the absolute error is
within tolerance the average is unchanged; in both cases the authoritative
value becomes the effective predicted restock instant. -/
theorem reconcile_calibration (a predicted actual : ℚ) :
    (|actual - predicted| > 5 * 60 * 1000 →
      reconcile (some a) predicted actual =
        (some (a + (actual - predicted) * (3 / 10)), actual)) ∧
    (|actual - predicted| ≤ 5 * 60 * 1000 →
      reconcile (some a) predicted actual = (some a, actual)) := by
  constructor
  · intro h
    unfold reconcile
    dsimp only
    rw [if_pos h]
  · intro h
    unfold reconcile
    dsimp only
    rw [if_neg (not_lt.mpr h)]

theorem reconcile_calibration_witness :
    reconcile (some 1000) 0 600000 = (some 181000, 600000) ∧
    reconcile (some 1000) 0 120000 = (some 1000, 120000) := by
  constructor
  · have h := (reconcile_calibration 1000 0 600000).1 (by norm_num)
    norm_num at h
    exact h
  · exact (reconcile_calibration 1000 0 120000).2 (by norm_num)

/-- C3: on a very first tick (previous quantity unknown) observing quantity
zero, no edge notification fires; the restart-recovery synthesis (modelled
from the spec) sets `warningSent` exactly when `now` is at or past the warn
instant and `departSent` exactly when `now` is past the depart window's
upper bound, so a tick whose `now` is past the whole depart window sends
nothing, while a depart window still containing `now` fires on that same
tick. -/
theorem restart_recovery_synthesis (s : MState) (n : ℚ) (d : Snapshot)
    (hq : s.quantity = none) (hd : d.quantity = 0)
    (now warnInstant departInstant departGrace : ℚ) :
    ((tick s n (some d)).2).filter isEdge = [] ∧
    ((synthesizeRestartFlags now warnInstant departInstant departGrace).1 = true ↔
      warnInstant ≤ now) ∧
    ((synthesizeRestartFlags now warnInstant departInstant departGrace).2 = true ↔
      departInstant + departGrace ≤ now) ∧
    (departInstant + departGrace ≤ now →
      (restartRecoveryTick now warnInstant departInstant departGrace).2 = []) ∧
    (departInstant ≤ now → now < departInstant + departGrace →
      Notif.depart ∈ (restartRecoveryTick now warnInstant departInstant departGrace).2) := by
  have hwarn : ¬(¬(decide (warnInstant ≤ now) = true) ∧ warnInstant ≤ now ∧
      now < departInstant) := by
    rintro ⟨hns, hle, -⟩
    exact hns (by simpa)
  refine ⟨?_, by simp [synthesizeRestartFlags], by simp [synthesizeRestartFlags], ?_, ?_⟩
  · simp only [tick]
    rw [tickEdges_first s n d hq]
    dsimp only
    rw [List.filter_append, tickCountdown_no_edges]
    rfl
  · intro h
    unfold restartRecoveryTick evalWindows synthesizeRestartFlags
    dsimp only
    rw [if_neg hwarn]
    rw [if_neg (show ¬(¬(decide (departInstant + departGrace ≤ now) = true) ∧
        departInstant ≤ now ∧ now < departInstant + departGrace) by
      rintro ⟨hns, -, -⟩
      exact hns (by simpa using h))]
    rfl
  · intro h1 h2
    unfold restartRecoveryTick evalWindows synthesizeRestartFlags
    dsimp only
    rw [if_neg hwarn]
    rw [if_pos (show ¬(decide (departInstant + departGrace ≤ now) = true) ∧
        departInstant ≤ now ∧ now < departInstant + departGrace from
      ⟨by simpa using not_le.mpr h2, h1, h2⟩)]
    simp

theorem restart_recovery_synthesis_witness :
    ((tick initState 0 (some ⟨0, 0, "P"⟩)).2).filter isEdge = [] ∧
    (synthesizeRestartFlags 60 10 20 30).1 = true ∧
    (synthesizeRestartFlags 60 10 20 30).2 = true ∧
    (restartRecoveryTick 60 10 20 30).2 = [] ∧
    Notif.depart ∈ (restartRecoveryTick 25 10 20 30).2 := by
  have h1 := restart_recovery_synthesis initState 0 ⟨0, 0, "P"⟩ rfl rfl 60 10 20 30
  have h2 := restart_recovery_synthesis initState 0 ⟨0, 0, "P"⟩ rfl rfl 25 10 20 30
  exact ⟨h1.1, h1.2.1.mpr (by norm_num), h1.2.2.1.mpr (by norm_num),
    h1.2.2.2.1 (by norm_num), h2.2.2.2.2 (by norm_num) (by norm_num)⟩

theorem containsSub_correct (n : List Char) : ∀ h : List Char,
    containsSub n h = true ↔ n <:+: h := by
  intro h
  induction h with
  | nil =>
    simp only [containsSub, List.isEmpty_iff, List.infix_nil]
  | cons c t ih =>
    simp only [containsSub, Bool.or_eq_true, List.isPrefixOf_iff_prefix, ih,
      List.infix_cons_iff]

theorem NestedIn.trans {x y z : Json} (h1 : NestedIn x y) (h2 : NestedIn y z) :
    NestedIn x z := by
  induction h2 with
  | refl => exact h1
  | inArr j l hn hm ih => exact NestedIn.inArr _ _ ih hm
  | inObj j o hn hm ih => exact NestedIn.inObj _ _ ih hm

theorem memval_of_get : ∀ (o : JObj) (k : String) (v : Json),
    o.get k = some v → JObj.MemVal v o
  | .onil, _, _, h => by simp [JObj.get] at h
  | .ocons key val t, k, v, h => by
    unfold JObj.get at h
    unfold JObj.MemVal
    split_ifs at h with hk
    · rw [Option.some.injEq] at h
      exact Or.inl h.symm
    · exact Or.inr (memval_of_get t k v h)

theorem infix_ctx {l₁ l₂ : List Char} (pre post : List Char) (h : l₁ <:+: l₂) :
    l₁ <:+: pre ++ l₂ ++ post := by
  obtain ⟨s, t, hst⟩ := h
  exact ⟨pre ++ s, t ++ post, by rw [← hst]; simp⟩

theorem dumps_mem_infixL : ∀ (l : JList) (j : Json),
    JList.Mem j l → dumps j <:+: dumpsL l
  | .nil, j, h => absurd h (by simp [JList.Mem])
  | .cons hd .nil, j, h => by
    rcases h with rfl | hmem
    · exact List.infix_refl _
    · exact absurd hmem (by simp [JList.Mem])
  | .cons hd (.cons h2 t2), j, h => by
    rcases h with rfl | hmem
    · unfold dumpsL
      exact ⟨[], ',' :: ' ' :: dumpsL (.cons h2 t2), by simp⟩
    · obtain ⟨s, t, hst⟩ := dumps_mem_infixL (.cons h2 t2) j hmem
      unfold dumpsL
      exact ⟨dumps hd ++ ',' :: ' ' :: s, t, by rw [← hst]; simp⟩

theorem dumps_mem_infixO : ∀ (o : JObj) (j : Json),
    JObj.MemVal j o → dumps j <:+: dumpsO o
  | .onil, j, h => absurd h (by simp [JObj.MemVal])
  | .ocons k v .onil, j, h => by
    rcases h with rfl | hmem
    · unfold dumpsO
      exact ⟨Char.ofNat 34 :: escape k.toList ++ [Char.ofNat 34, ':', ' '], [], by simp⟩
    · exact absurd hmem (by simp [JObj.MemVal])
  | .ocons k v (.ocons k2 v2 t2), j, h => by
    rcases h with rfl | hmem
    · unfold dumpsO
      exact ⟨Char.ofNat 34 :: escape k.toList ++ [Char.ofNat 34, ':', ' '],
        ',' :: ' ' :: dumpsO (.ocons k2 v2 t2), by simp⟩
    · obtain ⟨s, t, hst⟩ := dumps_mem_infixO (.ocons k2 v2 t2) j hmem
      unfold dumpsO
      exact ⟨(Char.ofNat 34 :: escape k.toList ++
        Char.ofNat 34 :: ':' :: ' ' :: dumps v) ++ ',' :: ' ' :: s, t,
        by rw [← hst]; simp⟩

theorem dumps_infix_of_nested {x y : Json} (h : NestedIn x y) :
    dumps x <:+: dumps y := by
  induction h with
  | refl => exact List.infix_refl _
  | inArr j l hn hm ih =>
    refine ih.trans ((dumps_mem_infixL l j hm).trans ?_)
    show dumpsL l <:+: dumps (.arr l)
    unfold dumps
    exact ⟨['['], [']'], rfl⟩
  | inObj j o hn hm ih =>
    refine ih.trans ((dumps_mem_infixO o j hm).trans ?_)
    show dumpsO o <:+: dumps (.obj o)
    unfold dumps
    exact ⟨[Char.ofNat 123], [Char.ofNat 125], rfl⟩

mutual
theorem search_eq_fm : ∀ j : Json, search j = (firstMatch j).map mkParsed
  | .null => rfl
  | .bool _ => rfl
  | .num _ => rfl
  | .str _ => rfl
  | .arr l => by
    unfold search firstMatch
    exact searchL_eq_fm l
  | .obj o => by
    unfold search firstMatch
    split_ifs with h
    · rfl
    · exact searchO_eq_fm o
theorem searchL_eq_fm : ∀ l : JList, searchL l = (firstMatchL l).map mkParsed
  | .nil => rfl
  | .cons h t => by
    unfold searchL firstMatchL
    rw [search_eq_fm h]
    cases firstMatch h with
    | none => exact searchL_eq_fm t
    | some r => rfl
theorem searchO_eq_fm : ∀ o : JObj, searchO o = (firstMatchO o).map mkParsed
  | .onil => rfl
  | .ocons k v t => by
    unfold searchO firstMatchO
    rw [search_eq_fm v]
    cases firstMatch v with
    | none => exact searchO_eq_fm t
    | some r => rfl
end

mutual
theorem fm_nested : ∀ (j : Json) (o : JObj),
    firstMatch j = some o → NestedIn (.obj o) j
  | .null, o, h => by simp [firstMatch] at h
  | .bool _, o, h => by simp [firstMatch] at h
  | .num _, o, h => by simp [firstMatch] at h
  | .str _, o, h => by simp [firstMatch] at h
  | .arr l, o, h => by
    unfold firstMatch at h
    obtain ⟨j, hm, hn⟩ := fmL_nested l o h
    exact NestedIn.inArr j l hn hm
  | .obj oo, o, h => by
    unfold firstMatch at h
    split_ifs at h with hc
    · rw [Option.some.injEq] at h
      rw [← h]
      exact NestedIn.refl
    · obtain ⟨j, hm, hn⟩ := fmO_nested oo o h
      exact NestedIn.inObj j oo hn hm
theorem fmL_nested : ∀ (l : JList) (o : JObj),
    firstMatchL l = some o → ∃ j, JList.Mem j l ∧ NestedIn (.obj o) j
  | .nil, o, h => by simp [firstMatchL] at h
  | .cons hd t, o, h => by
    unfold firstMatchL at h
    cases hh : firstMatch hd with
    | some r =>
      rw [hh] at h
      rw [Option.some.injEq] at h
      exact ⟨hd, Or.inl rfl, h ▸ fm_nested hd r hh⟩
    | none =>
      rw [hh] at h
      obtain ⟨j, hm, hn⟩ := fmL_nested t o h
      exact ⟨j, Or.inr hm, hn⟩
theorem fmO_nested : ∀ (oo : JObj) (o : JObj),
    firstMatchO oo = some o → ∃ j, JObj.MemVal j oo ∧ NestedIn (.obj o) j
  | .onil, o, h => by simp [firstMatchO] at h
  | .ocons k v t, o, h => by
    unfold firstMatchO at h
    cases hh : firstMatch v with
    | some r =>
      rw [hh] at h
      rw [Option.some.injEq] at h
      exact ⟨v, Or.inl rfl, h ▸ fm_nested v r hh⟩
    | none =>
      rw [hh] at h
      obtain ⟨j, hm, hn⟩ := fmO_nested t o h
      exact ⟨j, Or.inr hm, hn⟩
end

theorem fm_truthy (j : Json) (o : JObj) (h : firstMatch j = some o) :
    jsonTruthy j = true := by
  cases j with
  | null => simp [firstMatch] at h
  | bool b => simp [firstMatch] at h
  | num n => simp [firstMatch] at h
  | str s => simp [firstMatch] at h
  | arr l =>
    cases l with
    | nil =>
      rw [show firstMatch (.arr .nil) = none from rfl] at h
      exact absurd h (by simp)
    | cons hd t => rfl
  | obj oo =>
    cases oo with
    | onil =>
      rw [show firstMatch (.obj .onil) = none from rfl] at h
      exact absurd h (by simp)
    | ocons k v t => rfl

theorem escChar_fixed_of_lower_shark (c : Char) (h : lowerChar c ∈ sharkChars) :
    escChar c = [c] := by
  unfold lowerChar at h
  split at h
  all_goals simp only [sharkChars, List.mem_cons, List.not_mem_nil, or_false] at h
  all_goals try (exact absurd h (by decide))
  all_goals try decide
  rcases h with rfl | rfl | rfl | rfl | rfl <;> decide

theorem escape_append (a b : List Char) : escape (a ++ b) = escape a ++ escape b := by
  simp [escape]

theorem escape_fixed (w : List Char) (hw : ∀ c ∈ w, escChar c = [c]) :
    escape w = w := by
  induction w with
  | nil => rfl
  | cons c t ih =>
    unfold escape
    simp only [List.flatMap_cons]
    rw [hw c (by simp)]
    have := ih (fun x hx => hw x (by simp [hx]))
    unfold escape at this
    rw [this]
    rfl

theorem shark_infix_dumps_str (s : String)
    (hs : containsSub sharkChars (lowerList s.toList) = true) :
    sharkChars <:+: lowerList (dumps (.str s)) := by
  have hinf : sharkChars <:+: lowerList s.toList := (containsSub_correct _ _).mp hs
  obtain ⟨a, b, hab⟩ := hinf
  have hab2 : a ++ (sharkChars ++ b) = List.map lowerChar s.toList := by
    unfold lowerList at hab
    rw [← hab]; simp
  obtain ⟨u, rest, hsplit, hmu, hrest⟩ := List.append_eq_map_iff.mp hab2
  obtain ⟨w, v, hsplit2, hmw, hmv⟩ := List.append_eq_map_iff.mp hrest.symm
  have hwchars : ∀ c ∈ w, escChar c = [c] := by
    intro c hc
    apply escChar_fixed_of_lower_shark
    have := List.mem_map_of_mem lowerChar hc
    rw [hmw] at this
    exact this
  have hescape : escape s.toList = escape u ++ (w ++ escape v) := by
    rw [hsplit, hsplit2, escape_append, escape_append, escape_fixed w hwchars]
  show sharkChars <:+: lowerList (dumps (.str s))
  unfold dumps lowerList
  simp only [List.map_cons, List.map_append]
  rw [hescape]
  simp only [List.map_append, hmw]
  exact ⟨lowerChar (Char.ofNat 34) :: List.map lowerChar (escape u),
    List.map lowerChar (escape v) ++ List.map lowerChar [Char.ofNat 34], by simp⟩

/-- C10: a primary-source payload whose first matching item (id 1485 as
number or string, or a name containing `shark`) has no `quantity` field
parses successfully and reports quantity 0 (and cost 0 when `cost` is also
absent) instead of being treated as a data-shape failure, so such a payload
is indistinguishable from genuinely sold-out stock. -/
theorem parse_missing_quantity_defaults_zero (data : Json) (o : JObj)
    (hfm : firstMatch data = some o)
    (hkind : o.get "id" = some (.num 1485) ∨ o.get "id" = some (.str "1485") ∨
      ∃ s : String, o.get "name" = some (.str s) ∧
        containsSub sharkChars (lowerList s.toList) = true)
    (hq : o.get "quantity" = none) (hc : o.get "cost" = none) :
    parse_prometheus data = some ⟨Json.num 0, Json.num 0, "Prometheus"⟩ := by
  have htr := fm_truthy data o hfm
  have hnested := fm_nested data o hfm
  have hguard : containsSub sharkChars (lowerList (dumps data)) = true ∨
      containsSub chars1485 (lowerList (dumps data)) = true := by
    rcases hkind with hid | hid | ⟨s, hname, hs⟩
    · right
      have hnest2 : NestedIn (.num 1485) data :=
        NestedIn.trans (NestedIn.inObj _ o NestedIn.refl (memval_of_get o "id" _ hid))
          hnested
      have hlinf : lowerList (dumps (.num 1485)) <:+: lowerList (dumps data) :=
        (dumps_infix_of_nested hnest2).map lowerChar
      have hstart : chars1485 <:+: lowerList (dumps (.num 1485)) :=
        (containsSub_correct _ _).mp (by rfl)
      exact (containsSub_correct _ _).mpr (hstart.trans hlinf)
    · right
      have hnest2 : NestedIn (.str "1485") data :=
        NestedIn.trans (NestedIn.inObj _ o NestedIn.refl (memval_of_get o "id" _ hid))
          hnested
      have hlinf : lowerList (dumps (.str "1485")) <:+: lowerList (dumps data) :=
        (dumps_infix_of_nested hnest2).map lowerChar
      have hstart : chars1485 <:+: lowerList (dumps (.str "1485")) :=
        (containsSub_correct _ _).mp (by rfl)
      exact (containsSub_correct _ _).mpr (hstart.trans hlinf)
    · left
      have hnest2 : NestedIn (.str s) data :=
        NestedIn.trans (NestedIn.inObj _ o NestedIn.refl (memval_of_get o "name" _ hname))
          hnested
      have hlinf : lowerList (dumps (.str s)) <:+: lowerList (dumps data) :=
        (dumps_infix_of_nested hnest2).map lowerChar
      exact (containsSub_correct _ _).mpr ((shark_infix_dumps_str s hs).trans hlinf)
  unfold parse_prometheus
  rw [htr]
  simp only [Bool.not_true, Bool.false_eq_true, if_false]
  have hcond : (!containsSub sharkChars (lowerList (dumps data)) &&
      !containsSub chars1485 (lowerList (dumps data))) = false := by
    rcases hguard with hg | hg <;> rw [hg] <;> simp
  rw [hcond]
  simp only [Bool.false_eq_true, if_false]
  rw [search_eq_fm data, hfm]
  simp [mkParsed, hq, hc]

theorem parse_missing_quantity_defaults_zero_witness :
    parse_prometheus (.obj (.ocons "stocks"
        (.arr (.cons (.obj (.ocons "id" (.num 1485) .onil)) .nil)) .onil)) =
      some ⟨Json.num 0, Json.num 0, "Prometheus"⟩ :=
  parse_missing_quantity_defaults_zero
    (.obj (.ocons "stocks"
      (.arr (.cons (.obj (.ocons "id" (.num 1485) .onil)) .nil)) .onil))
    (.ocons "id" (.num 1485) .onil)
    rfl (Or.inl rfl) rfl rfl
